import Mathlib

/-
Verification of the flush-load-balancer routing engine.

The JavaScript source keeps three pieces of mutable state: a round-robin
cursor (`roundRobinIndex`), a per-developer request counter object
(`requestCounts`), and a per-developer health object (`healthStatus`).
Backends ("developers") are a mapping from developer name to a mapping
from service name to target URL, iterated in insertion order
(`Object.keys`).  We embed the state as a structure with total functions
(a JavaScript object key that was never written corresponds to
`Health.unset`, and a missing request count to `0`, mirroring the
`requestCounts[dev] || 0` reads in the source).
-/

namespace Flush

/-- Health value stored for a developer in the JS `healthStatus` object:
a developer id is either absent from the object (never reported, `unset`)
or mapped to the string `'healthy'` / `'unhealthy'`. -/
inductive Health
  | unset
  | healthy
  | unhealthy
  deriving DecidableEq, Repr

/-- The mutable load-balancer state of `load-balancer.js` /
`api/_lib/load-balancer.js`: `roundRobinIndex`, `requestCounts`,
`healthStatus`. -/
structure LBState where
  roundRobinIndex : Nat
  requestCounts : String → Nat
  healthStatus : String → Health

/-- Initial state: `roundRobinIndex = 0`, empty count and health objects. -/
def initState : LBState :=
  { roundRobinIndex := 0, requestCounts := fun _ => 0, healthStatus := fun _ => Health.unset }

/-- The developer registry: insertion-ordered mapping from developer name to
an insertion-ordered mapping from service name to target URL, as built by
`loadDevelopersFromEnv`. -/
abbrev Registry := List (String × List (String × String))

/-- Lookup in an insertion-ordered JS-object model (first binding wins,
as `Object.keys` never repeats a key). -/
def lookupKey {α : Type} (m : List (String × α)) (k : String) : Option α :=
  (m.find? (fun p => p.1 == k)).map (fun p => p.2)

/-- `developers[dev][service]`: the configured URL, when present. -/
def getEndpoint (devs : Registry) (dev service : String) : Option String :=
  match lookupKey devs dev with
  | none => none
  | some svcs => lookupKey svcs service

/-- JS truthiness of `developers[dev][service]`: the URL must be present
and a non-empty string. -/
def truthyUrl : Option String → Bool
  | some u => u ≠ ""
  | none => false

/-- `healthStatus[dev] !== 'unhealthy'`: true for `unset` (never-seen ids
default to eligible) and for `healthy`. -/
def notUnhealthy : Health → Bool
  | Health.unhealthy => false
  | _ => true

/-- The eligible set computed identically at the top of every strategy:
`Object.keys(developers).filter(dev => developers[dev][service] &&
healthStatus[dev] !== 'unhealthy')`. -/
def availableDevelopers (devs : Registry) (service : String) (health : String → Health) :
    List String :=
  (devs.map Prod.fst).filter
    (fun d => truthyUrl (getEndpoint devs d service) && notUnhealthy (health d))

/-- `LoadBalancer.roundRobin`: pick `availableDevelopers[roundRobinIndex %
length]`, then advance `roundRobinIndex = (roundRobinIndex + 1) % length`;
`null` (and untouched state) when the eligible set is empty. -/
def roundRobin (devs : Registry) (service : String) (s : LBState) :
    Option String × LBState :=
  if (availableDevelopers devs service s.healthStatus).length = 0 then (none, s)
  else
    ((availableDevelopers devs service s.healthStatus).get?
        (s.roundRobinIndex % (availableDevelopers devs service s.healthStatus).length),
     { s with roundRobinIndex :=
        (s.roundRobinIndex + 1) % (availableDevelopers devs service s.healthStatus).length })

/-- The accumulator of the JS `reduce((min, dev) => (requestCounts[dev] || 0)
< (requestCounts[min] || 0) ? dev : min)`: strict `<` keeps the earlier
element on ties. -/
def lcFold (counts : String → Nat) (m : String) : List String → String
  | [] => m
  | d :: rest => lcFold counts (if counts d < counts m then d else m) rest

/-- `reduce` without an initial value: the head seeds the accumulator;
`null` on an empty list. -/
def lcSelect (counts : String → Nat) : List String → Option String
  | [] => none
  | d :: rest => some (lcFold counts d rest)

/-- `LoadBalancer.leastConnections`: arg-min of `requestCounts[dev] || 0`
over the eligible set via `reduce`; mutates nothing. -/
def leastConnections (devs : Registry) (service : String) (s : LBState) :
    Option String × LBState :=
  (lcSelect s.requestCounts (availableDevelopers devs service s.healthStatus), s)

/-- `LoadBalancer.random`: `availableDevelopers[Math.floor(Math.random() *
length)]`.  The oracle argument models the random draw; the chosen index
`oracle % length` lies in `[0, length)` exactly as `floor(random * length)`
does. -/
def randomPick (devs : Registry) (service : String) (oracle : Nat) (s : LBState) :
    Option String × LBState :=
  (if (availableDevelopers devs service s.healthStatus).length = 0 then none
   else (availableDevelopers devs service s.healthStatus).get?
      (oracle % (availableDevelopers devs service s.healthStatus).length), s)

/-- The hardcoded weight object of `LoadBalancer.weighted` with the
`weights[dev] || 1` default for unlisted developers. -/
def staticWeights (d : String) : Nat :=
  if d = "alice" then 3 else if d = "bob" then 3 else if d = "charlie" then 4 else 1

/-- The cumulative-subtraction loop of `LoadBalancer.weighted`:
`random -= weight; if (random <= 0) return dev`. -/
def weightedWalk (draw : Int) : List String → Option String
  | [] => none
  | d :: rest =>
    if draw - (staticWeights d : Int) ≤ 0 then some d
    else weightedWalk (draw - (staticWeights d : Int)) rest

/-- `LoadBalancer.weighted`: draw models `Math.random() * totalWeight`;
falls back to `availableDevelopers[0]` when the loop completes. -/
def weightedPick (devs : Registry) (service : String) (draw : Int) (s : LBState) :
    Option String × LBState :=
  (match availableDevelopers devs service s.healthStatus with
   | [] => none
   | d :: rest => some ((weightedWalk draw (d :: rest)).getD d), s)

/-- One step of the session-id hash in `LoadBalancer.sticky`:
`a = ((a << 5) - a) + charCode; return a & a`, where `<<` and `&` coerce
to a signed 32-bit integer. -/
def toInt32 (z : Int) : Int := (z + 2 ^ 31) % 2 ^ 32 - 2 ^ 31

/-- `hashStep a c` is the reduce callback applied to accumulator `a` and a
character of code `c`. -/
def hashStep (a : Int) (c : Nat) : Int := toInt32 (toInt32 (a * 32) - a + c)

/-- `sessionId.split('').reduce(..., 0)`: the 32-bit string hash of the
affinity key (character codes; identical to `charCodeAt` on the ASCII keys
used here). -/
def jsHash (key : String) : Int :=
  key.data.foldl (fun a ch => hashStep a ch.toNat) 0

/-- `LoadBalancer.sticky`: empty eligible set gives `null`; a truthy
(non-empty) session id indexes the eligible set at
`Math.abs(hash) % length` without touching state; a falsy session id falls
back to `roundRobin`. -/
def sticky (devs : Registry) (service key : String) (s : LBState) :
    Option String × LBState :=
  if (availableDevelopers devs service s.healthStatus).length = 0 then (none, s)
  else if key ≠ "" then
    ((availableDevelopers devs service s.healthStatus).get?
        ((jsHash key).natAbs % (availableDevelopers devs service s.healthStatus).length), s)
  else roundRobin devs service s

/-- `selectDeveloper`: the strategy switch with `round_robin` as the
default branch.  `key` is the session id ("" models an absent/falsy one);
`oracle`/`draw` feed the random-based strategies. -/
def selectDeveloper (devs : Registry) (strategy service key : String)
    (oracle : Nat) (draw : Int) (s : LBState) : Option String × LBState :=
  if strategy = "round_robin" then roundRobin devs service s
  else if strategy = "least_connections" then leastConnections devs service s
  else if strategy = "random" then randomPick devs service oracle s
  else if strategy = "weighted" then weightedPick devs service draw s
  else if strategy = "sticky" then sticky devs service key s
  else roundRobin devs service s

/-- `getTargetUrl` of `load-balancer.js`: `developers[developer]?.[service]
|| null`, with JS truthiness turning an empty URL string into `null`. -/
def getTargetUrl (devs : Registry) (dev service : String) : Option String :=
  match lookupKey devs dev with
  | none => none
  | some cfg =>
    match lookupKey cfg service with
    | some u => if u = "" then none else some u
    | none => none

/-- `updateStats(developer, success)` of `api/_lib/load-balancer.js`:
guarded by JS truthiness of `developer`; increments
`requestCounts[developer]` unconditionally and sets `healthStatus` to
`healthy`/`unhealthy` from the flag. -/
def updateStats (dev : String) (success : Bool) (s : LBState) : LBState :=
  if dev = "" then s
  else
    { s with
      requestCounts := fun d => if d = dev then s.requestCounts d + 1 else s.requestCounts d,
      healthStatus := fun d =>
        if d = dev then (if success then Health.healthy else Health.unhealthy)
        else s.healthStatus d }

/-- `onProxyRes` of `createSlackProxy` in `load-balancer.js`: on any
upstream response, increment the developer's request count and mark it
healthy. -/
def onProxyRes (dev : String) (s : LBState) : LBState :=
  if dev = "" then s
  else
    { s with
      requestCounts := fun d => if d = dev then s.requestCounts d + 1 else s.requestCounts d,
      healthStatus := fun d => if d = dev then Health.healthy else s.healthStatus d }

/-- The state mutation of `onError` in `createSlackProxy`: mark the
developer unhealthy; request counts untouched. -/
def onError (dev : String) (s : LBState) : LBState :=
  if dev = "" then s
  else
    { s with
      healthStatus := fun d => if d = dev then Health.unhealthy else s.healthStatus d }

/-- `POST /reset-health`: `Object.keys(healthStatus).forEach(dev =>
healthStatus[dev] = 'healthy')`.  A key exists in the JS object exactly
when the developer has been reported at least once, i.e. its status is not
`unset`; request counts are untouched. -/
def resetHealth (s : LBState) : LBState :=
  { s with
    healthStatus := fun d =>
      match s.healthStatus d with
      | Health.unset => Health.unset
      | _ => Health.healthy }

/-- A three-developer registry (insertion order a, b, c), each configured
for the service "events" — the eligible set of the spec scenarios. -/
def demoDevs : Registry :=
  [("a", [("events", "https://a.example")]),
   ("b", [("events", "https://b.example")]),
   ("c", [("events", "https://c.example")])]

/-- State for the least-connections scenario: counts a=5, b=2, c=2, all
developers unreported (hence eligible). -/
def stateC7 : LBState :=
  { roundRobinIndex := 0,
    requestCounts := fun d => if d = "a" then 5 else if d = "b" then 2 else if d = "c" then 2 else 0,
    healthStatus := fun _ => Health.unset }

example : availableDevelopers demoDevs "events" initState.healthStatus = ["a", "b", "c"] := by
  decide

example : (leastConnections demoDevs "events" stateC7).1 = some "b" := by
  decide

/-
JSON model for the serverless forwarding path.  The Vercel handlers parse
the raw body (`JSON.parse`) and `proxyRequest` sends
`JSON.stringify(req.body)` — a re-serialized copy — while the express
proxy writes `req.rawBody` verbatim.  We model the `JSON.parse` /
`JSON.stringify` builtins on the JSON fragment these requests use
(objects, arrays, strings without escape sequences, integers, booleans,
null, insignificant whitespace).
-/

/-- A JSON value (integer numerals; strings without escapes). -/
inductive Json
  | null
  | bool (b : Bool)
  | num (n : Int)
  | str (s : String)
  | arr (xs : List Json)
  | obj (fields : List (String × Json))

mutual

/-- `JSON.stringify`: compact serialization, no inserted whitespace. -/
def jsonStringify : Json → String
  | Json.null => "null"
  | Json.bool true => "true"
  | Json.bool false => "false"
  | Json.num n => toString n
  | Json.str s => "\"" ++ s ++ "\""
  | Json.arr xs => "[" ++ stringifyElems xs ++ "]"
  | Json.obj fs => "\x7b" ++ stringifyMembers fs ++ "\x7d"

/-- Comma-separated serialization of array elements. -/
def stringifyElems : List Json → String
  | [] => ""
  | [x] => jsonStringify x
  | x :: y :: rest => jsonStringify x ++ "," ++ stringifyElems (y :: rest)

/-- Comma-separated serialization of object members. -/
def stringifyMembers : List (String × Json) → String
  | [] => ""
  | [(k, v)] => "\"" ++ k ++ "\":" ++ jsonStringify v
  | (k, v) :: f :: rest =>
    "\"" ++ k ++ "\":" ++ jsonStringify v ++ "," ++ stringifyMembers (f :: rest)

end

/-- Drop leading JSON whitespace. -/
def skipWs : List Char → List Char
  | [] => []
  | c :: rest =>
    if c = ' ' ∨ c = '\n' ∨ c = '\t' ∨ c = '\r' then skipWs rest else c :: rest

/-- Read a string body up to the closing quote (no escapes). -/
def parseStringRest : List Char → Option (String × List Char)
  | [] => none
  | c :: rest =>
    if c = '"' then some ("", rest)
    else
      match parseStringRest rest with
      | some (s, r) => some (String.mk (c :: s.data), r)
      | none => none

/-- Numeric value of a decimal digit character. -/
def digitVal (c : Char) : Nat := c.toNat - '0'.toNat

/-- Read a run of decimal digits into an accumulator. -/
def parseDigits (acc : Nat) : List Char → Nat × List Char
  | [] => (acc, [])
  | c :: rest =>
    if c.isDigit then parseDigits (10 * acc + digitVal c) rest else (acc, c :: rest)

mutual

/-- Recursive-descent `JSON.parse` for one value (fuel bounds nesting and
sequence length; `jsonParse` supplies enough for any input). -/
def parseValue : Nat → List Char → Option (Json × List Char)
  | 0, _ => none
  | fuel + 1, cs =>
    match skipWs cs with
    | 'n' :: 'u' :: 'l' :: 'l' :: rest => some (Json.null, rest)
    | 't' :: 'r' :: 'u' :: 'e' :: rest => some (Json.bool true, rest)
    | 'f' :: 'a' :: 'l' :: 's' :: 'e' :: rest => some (Json.bool false, rest)
    | '"' :: rest =>
      match parseStringRest rest with
      | some (s, r) => some (Json.str s, r)
      | none => none
    | '[' :: rest =>
      match skipWs rest with
      | ']' :: r => some (Json.arr [], r)
      | cs2 =>
        match parseElems fuel cs2 with
        | some (xs, r) => some (Json.arr xs, r)
        | none => none
    | '\x7b' :: rest =>
      match skipWs rest with
      | '\x7d' :: r => some (Json.obj [], r)
      | cs2 =>
        match parseMembers fuel cs2 with
        | some (fs, r) => some (Json.obj fs, r)
        | none => none
    | '-' :: c :: rest =>
      if c.isDigit then
        let p := parseDigits (digitVal c) rest
        some (Json.num (-(p.1 : Int)), p.2)
      else none
    | c :: rest =>
      if c.isDigit then
        let p := parseDigits (digitVal c) rest
        some (Json.num (p.1 : Int), p.2)
      else none
    | [] => none

/-- Parse the comma-separated elements of a non-empty array. -/
def parseElems : Nat → List Char → Option (List Json × List Char)
  | 0, _ => none
  | fuel + 1, cs =>
    match parseValue fuel cs with
    | some (v, r) =>
      match skipWs r with
      | ',' :: r2 =>
        match parseElems fuel r2 with
        | some (vs, r3) => some (v :: vs, r3)
        | none => none
      | ']' :: r2 => some ([v], r2)
      | _ => none
    | none => none

/-- Parse the comma-separated members of a non-empty object. -/
def parseMembers : Nat → List Char → Option (List (String × Json) × List Char)
  | 0, _ => none
  | fuel + 1, cs =>
    match skipWs cs with
    | '"' :: rest =>
      match parseStringRest rest with
      | some (k, r) =>
        match skipWs r with
        | ':' :: r2 =>
          match parseValue fuel r2 with
          | some (v, r3) =>
            match skipWs r3 with
            | ',' :: r4 =>
              match parseMembers fuel r4 with
              | some (fs, r5) => some ((k, v) :: fs, r5)
              | none => none
            | '\x7d' :: r4 => some ([(k, v)], r4)
            | _ => none
          | none => none
        | _ => none
      | none => none
    | _ => none

end

/-- `JSON.parse`: parse one value and require only trailing whitespace. -/
def jsonParse (s : String) : Option Json :=
  match parseValue (s.data.length + 1) s.data with
  | some (v, rest) => if skipWs rest = [] then some v else none
  | none => none

/-- The bytes the express proxy writes upstream in `onProxyReq`:
`if (req.rawBody && req.rawBody.length > 0) proxyReq.write(req.rawBody)`
— the captured raw body verbatim (nothing when it is empty). -/
def expressForwardedBody (rawBody : String) : String :=
  if rawBody.length > 0 then rawBody else ""

/-- The body the serverless path sends: the handler sets `req.body =
JSON.parse(rawBody)` and `proxyRequest` sends `JSON.stringify(req.body)`. -/
def serverlessForwardedBody (raw : String) : Option String :=
  (jsonParse raw).map jsonStringify

example : serverlessForwardedBody "\x7b\"a\": 1\x7d" = some "\x7b\"a\":1\x7d" := by decide

/-
Forwarder outcome model.  `proxyRequest` in `api/_lib/load-balancer.js`
performs a single `fetch` with `AbortSignal.timeout(2800)`; on resolve it
returns `{status, data, duration}`, on any thrown error it classifies by
`error.name === 'TimeoutError' ? 504 : 502` and throws.  We model the
effectful call by a stream of attempt outcomes: the value each successive
`fetch` attempt would produce.  The function consumes outcomes from the
front; the number consumed is the number of attempts made.
-/

/-- What one `fetch` attempt would yield. -/
inductive FetchOutcome
  | response (status : Nat) (data : Json)
  | failure (name message : String)

/-- The error object `proxyRequest` throws. -/
structure ProxyFailure where
  status : Nat
  error : String
  message : String
  duration : Nat
  deriving DecidableEq, Repr

/-- The result object `proxyRequest` returns. -/
structure ProxySuccess where
  status : Nat
  data : Json
  duration : Nat

/-- The catch block of `proxyRequest`: `TimeoutError` maps to 504 "Gateway
Timeout", every other error to 502 "Bad Gateway". -/
def classifyError (name message : String) (duration : Nat) : ProxyFailure :=
  { status := if name = "TimeoutError" then 504 else 502,
    error := if name = "TimeoutError" then "Gateway Timeout" else "Bad Gateway",
    message := message,
    duration := duration }

/-- `proxyRequest` run against a stream of attempt outcomes: it issues
exactly one `fetch` (consuming one outcome) and returns or throws; there
is no retry path.  The second component is the number of attempts made. -/
def proxyRequestRun (attempts : List FetchOutcome) (duration : Nat) :
    Option (Except ProxyFailure ProxySuccess × Nat) :=
  match attempts with
  | [] => none
  | FetchOutcome.response st d :: _ => some (Except.ok ⟨st, d, duration⟩, 1)
  | FetchOutcome.failure n m :: _ => some (Except.error (classifyError n m duration), 1)

/-- The 502 response body the express `onError` handler sends
(`res.status(502).json({...})`) for every proxy error. -/
structure ExpressErrorBody where
  error : String
  message : String
  duration_ms : Nat
  error_code : String
  deriving DecidableEq, Repr

/-- `onError` of `createSlackProxy`: unconditionally status 502. -/
def onErrorResponse (errCode : String) (duration : Nat) : Nat × ExpressErrorBody :=
  (502, { error := "Bad Gateway", message := "Backend connection failed",
          duration_ms := duration, error_code := errCode })

/-
Router model for the `/slack/events` middleware and the `/health`
endpoint, plus a unified operation type for the state-invariant claims.
-/

/-- What the `/slack/events` middleware does before any proxying. -/
inductive RouteOutcome
  | noDevelopers (status : Nat) (service : String)
  | noTarget (status : Nat) (dev service : String)
  | forwarded (dev target : String)
  deriving DecidableEq, Repr

/-- The `/slack/events` middleware: session id from the signature header,
falling back to the forwarded-for header; 503 and stop when selection
returns null; 502 when the selected developer has no target URL; otherwise
hand off to the proxy. -/
def slackEventsRoute (devs : Registry) (strategy sigHeader fwdHeader : String)
    (oracle : Nat) (draw : Int) (s : LBState) : RouteOutcome × LBState :=
  let sessionId := if sigHeader ≠ "" then sigHeader else fwdHeader
  match selectDeveloper devs strategy "slack_app" sessionId oracle draw s with
  | (none, s1) => (RouteOutcome.noDevelopers 503 "slack_app", s1)
  | (some dev, s1) =>
    match getTargetUrl devs dev "slack_app" with
    | none => (RouteOutcome.noTarget 502 dev "slack_app", s1)
    | some url => (RouteOutcome.forwarded dev url, s1)

/-- The JSON body of `GET /health` (the fields the claims concern). -/
structure HealthResponse where
  status : String
  developers : List String
  strategy : String
  requestCounts : String → Nat
  healthStatus : String → Health

/-- `GET /health`: always HTTP 200 with top-level `status: 'healthy'`;
backend health appears only in the nested `health_status` field. -/
def healthHandler (devs : Registry) (strategy : String) (s : LBState) :
    Nat × HealthResponse :=
  (200,
   { status := "healthy", developers := devs.map Prod.fst, strategy := strategy,
     requestCounts := s.requestCounts, healthStatus := s.healthStatus })

/-- Every state-mutating operation of the engine, for stating invariants
over the whole process lifetime. -/
inductive LBOp
  | select (strategy service key : String) (oracle : Nat) (draw : Int)
  | stats (dev : String) (success : Bool)
  | proxyRes (dev : String)
  | proxyErr (dev : String)
  | reset

/-- Apply one operation to the state. -/
def applyOp (devs : Registry) : LBOp → LBState → LBState
  | LBOp.select strategy service key oracle draw, s =>
    (selectDeveloper devs strategy service key oracle draw s).2
  | LBOp.stats dev success, s => updateStats dev success s
  | LBOp.proxyRes dev, s => onProxyRes dev s
  | LBOp.proxyErr dev, s => onError dev s
  | LBOp.reset, s => resetHealth s

/-- `k` consecutive `roundRobin` selections (nothing else interleaved):
the list of returned developers together with the final state. -/
def rrSeq (devs : Registry) (service : String) : Nat → LBState → List (Option String) × LBState
  | 0, s => ([], s)
  | k + 1, s =>
    let p := roundRobin devs service s
    let q := rrSeq devs service k p.2
    (p.1 :: q.1, q.2)

/-
Helper lemmas about the selection strategies.
-/

theorem roundRobin_counts (devs : Registry) (service : String) (s : LBState) :
    (roundRobin devs service s).2.requestCounts = s.requestCounts := by
  unfold roundRobin
  split <;> rfl

theorem roundRobin_health (devs : Registry) (service : String) (s : LBState) :
    (roundRobin devs service s).2.healthStatus = s.healthStatus := by
  unfold roundRobin
  split <;> rfl

theorem roundRobin_fst (devs : Registry) (service : String) (s : LBState)
    (h : availableDevelopers devs service s.healthStatus ≠ []) :
    (roundRobin devs service s).1 =
      (availableDevelopers devs service s.healthStatus).get?
        (s.roundRobinIndex % (availableDevelopers devs service s.healthStatus).length) := by
  unfold roundRobin
  rw [if_neg (fun hc => h (List.length_eq_zero.mp hc))]

theorem roundRobin_idx (devs : Registry) (service : String) (s : LBState)
    (h : availableDevelopers devs service s.healthStatus ≠ []) :
    (roundRobin devs service s).2.roundRobinIndex =
      (s.roundRobinIndex + 1) % (availableDevelopers devs service s.healthStatus).length := by
  unfold roundRobin
  rw [if_neg (fun hc => h (List.length_eq_zero.mp hc))]

theorem sticky_counts (devs : Registry) (service key : String) (s : LBState) :
    (sticky devs service key s).2.requestCounts = s.requestCounts := by
  unfold sticky
  split
  · rfl
  · split
    · rfl
    · exact roundRobin_counts devs service s

theorem selectDeveloper_counts (devs : Registry) (strategy service key : String)
    (oracle : Nat) (draw : Int) (s : LBState) :
    (selectDeveloper devs strategy service key oracle draw s).2.requestCounts =
      s.requestCounts := by
  unfold selectDeveloper
  split_ifs <;>
    first
      | exact roundRobin_counts devs service s
      | exact sticky_counts devs service key s
      | rfl

theorem roundRobin_empty (devs : Registry) (service : String) (s : LBState)
    (h : availableDevelopers devs service s.healthStatus = []) :
    roundRobin devs service s = (none, s) := by
  unfold roundRobin
  rw [h]
  rfl

theorem leastConnections_empty (devs : Registry) (service : String) (s : LBState)
    (h : availableDevelopers devs service s.healthStatus = []) :
    leastConnections devs service s = (none, s) := by
  unfold leastConnections
  rw [h]
  rfl

theorem randomPick_empty (devs : Registry) (service : String) (oracle : Nat) (s : LBState)
    (h : availableDevelopers devs service s.healthStatus = []) :
    randomPick devs service oracle s = (none, s) := by
  unfold randomPick
  rw [h]
  rfl

theorem weightedPick_empty (devs : Registry) (service : String) (draw : Int) (s : LBState)
    (h : availableDevelopers devs service s.healthStatus = []) :
    weightedPick devs service draw s = (none, s) := by
  unfold weightedPick
  rw [h]

theorem sticky_empty (devs : Registry) (service key : String) (s : LBState)
    (h : availableDevelopers devs service s.healthStatus = []) :
    sticky devs service key s = (none, s) := by
  unfold sticky
  rw [h]
  rfl

theorem selectDeveloper_empty (devs : Registry) (strategy service key : String)
    (oracle : Nat) (draw : Int) (s : LBState)
    (h : availableDevelopers devs service s.healthStatus = []) :
    selectDeveloper devs strategy service key oracle draw s = (none, s) := by
  unfold selectDeveloper
  split_ifs <;>
    first
      | exact roundRobin_empty devs service s h
      | exact leastConnections_empty devs service s h
      | exact randomPick_empty devs service oracle s h
      | exact weightedPick_empty devs service draw s h
      | exact sticky_empty devs service key s h

theorem slackEventsRoute_empty (devs : Registry) (strategy sig fwd : String)
    (oracle : Nat) (draw : Int) (s : LBState)
    (h : availableDevelopers devs "slack_app" s.healthStatus = []) :
    slackEventsRoute devs strategy sig fwd oracle draw s =
      (RouteOutcome.noDevelopers 503 "slack_app", s) := by
  unfold slackEventsRoute
  simp only []
  rw [selectDeveloper_empty devs strategy "slack_app" _ oracle draw s h]

theorem rrSeq_get? (devs : Registry) (service : String) (k : Nat) :
    ∀ s : LBState, availableDevelopers devs service s.healthStatus ≠ [] →
      (rrSeq devs service k s).1 =
        (List.range k).map (fun i =>
          (availableDevelopers devs service s.healthStatus).get?
            ((s.roundRobinIndex + i) %
              (availableDevelopers devs service s.healthStatus).length)) := by
  induction k with
  | zero => intro s _; simp [rrSeq]
  | succ k ih =>
    intro s h
    have hstep := ih (roundRobin devs service s).2
      (by rw [roundRobin_health]; exact h)
    rw [roundRobin_health devs service s] at hstep
    rw [roundRobin_idx devs service s h] at hstep
    have harith : ∀ i : Nat,
        ((s.roundRobinIndex + 1) %
            (availableDevelopers devs service s.healthStatus).length + i) %
          (availableDevelopers devs service s.healthStatus).length
        = (s.roundRobinIndex + Nat.succ i) %
            (availableDevelopers devs service s.healthStatus).length := by
      intro i
      rw [Nat.mod_add_mod]
      congr 1
      omega
    simp only [harith] at hstep
    show (roundRobin devs service s).1 ::
        (rrSeq devs service k (roundRobin devs service s).2).1 = _
    rw [hstep, roundRobin_fst devs service s h, List.range_succ_eq_map, List.map_cons,
      List.map_map]
    rfl

theorem rotate_get?_eq (l : List String) (c : Nat) (hpos : 0 < l.length) :
    (List.range l.length).map (fun i => l.get? ((c + i) % l.length)) =
      (l.rotate (c % l.length)).map some := by
  apply List.ext
  intro n
  by_cases hn : n < l.length
  · rw [List.get?_map, List.get?_map, List.get?_range (by simpa using hn),
      List.get?_rotate hn]
    simp only [Option.map_some']
    have hidx : (n + c % l.length) % l.length = (c + n) % l.length := by
      rw [Nat.add_comm n (c % l.length), Nat.mod_add_mod]
    rw [hidx, List.get?_eq_get (Nat.mod_lt _ hpos)]
    simp
  · have h1 : ((List.range l.length).map
        (fun i => l.get? ((c + i) % l.length))).get? n = none := by
      rw [List.get?_eq_none]
      simpa using Nat.le_of_not_lt hn
    have h2 : ((l.rotate (c % l.length)).map some).get? n = none := by
      rw [List.get?_eq_none]
      simpa [List.length_rotate] using Nat.le_of_not_lt hn
    rw [h1, h2]

theorem count_map_some (l : List String) (d : String) :
    (l.map some).count (some d) = l.count d := by
  induction l with
  | nil => rfl
  | cons x xs ih => simp [List.count_cons, ih]

theorem count_rotate_eq (l : List String) (n : Nat) (d : String) :
    (l.rotate n).count d = l.count d := by
  rw [List.rotate_eq_drop_append_take_mod, List.count_append, Nat.add_comm,
    ← List.count_append, List.take_append_drop]

theorem count_eq_one_of_nodup_mem (l : List String) (h : l.Nodup) (d : String)
    (hd : d ∈ l) : l.count d = 1 := by
  induction l with
  | nil => simp at hd
  | cons x xs ih =>
    rw [List.count_cons]
    rcases List.mem_cons.mp hd with h1 | h2
    · subst h1
      rw [List.count_eq_zero.mpr (List.nodup_cons.mp h).1]
      simp
    · rw [ih (List.nodup_cons.mp h).2 h2]
      have hne : d ≠ x := fun he => (List.nodup_cons.mp h).1 (he ▸ h2)
      simp [hne, Ne.symm hne]

/-
Helper lemmas about the `reduce` of `leastConnections`.
-/

theorem lcFold_mem (counts : String → Nat) (l : List String) :
    ∀ m, lcFold counts m l ∈ m :: l := by
  induction l with
  | nil => intro m; simp [lcFold]
  | cons d rest ih =>
    intro m
    rw [lcFold]
    have h := ih (if counts d < counts m then d else m)
    rcases List.mem_cons.mp h with h1 | h2
    · rw [h1]
      split <;> simp
    · simp [h2]

theorem lcFold_min (counts : String → Nat) (l : List String) :
    ∀ m, ∀ e ∈ m :: l, counts (lcFold counts m l) ≤ counts e := by
  induction l with
  | nil =>
    intro m e he
    rw [List.mem_singleton.mp he]
    simp [lcFold]
  | cons d rest ih =>
    intro m e he
    rw [lcFold]
    have hle : counts (lcFold counts (if counts d < counts m then d else m) rest)
        ≤ counts (if counts d < counts m then d else m) :=
      ih _ _ (List.mem_cons_self _ _)
    rcases List.mem_cons.mp he with h1 | h2
    · subst h1
      refine le_trans hle ?_
      split
      · next hlt => omega
      · exact le_refl _
    · rcases List.mem_cons.mp h2 with h3 | h4
      · subst h3
        refine le_trans hle ?_
        split
        · exact le_refl _
        · next hlt => omega
      · exact ih _ e (List.mem_cons_of_mem _ h4)

theorem lcFold_first (counts : String → Nat) (l : List String) :
    ∀ m, (m :: l).find? (fun e => counts e == counts (lcFold counts m l)) =
      some (lcFold counts m l) := by
  induction l with
  | nil =>
    intro m
    simp [lcFold]
  | cons d rest ih =>
    intro m
    rw [lcFold]
    by_cases hdm : counts d < counts m
    · rw [if_pos hdm]
      have hmin : counts (lcFold counts d rest) ≤ counts d :=
        lcFold_min counts rest d d (List.mem_cons_self d rest)
      have hne : (counts m == counts (lcFold counts d rest)) = false := by
        rw [beq_eq_false_iff_ne]
        omega
      rw [List.find?_cons_of_neg _ (by simp [hne]), ih d]
    · rw [if_neg hdm]
      have hih := ih m
      have hmin : counts (lcFold counts m rest) ≤ counts m :=
        lcFold_min counts rest m m (List.mem_cons_self m rest)
      cases hpm : (counts m == counts (lcFold counts m rest)) with
      | true =>
        rw [List.find?_cons_of_pos _ (by simp [hpm])]
        rw [List.find?_cons_of_pos _ (by simp [hpm])] at hih
        exact hih
      | false =>
        have hmlt : counts (lcFold counts m rest) < counts m := by
          have := beq_eq_false_iff_ne.mp hpm
          omega
        have hpd : (counts d == counts (lcFold counts m rest)) = false := by
          rw [beq_eq_false_iff_ne]
          omega
        rw [List.find?_cons_of_neg _ (by simp [hpm]),
          List.find?_cons_of_neg _ (by simp [hpd])]
        rw [List.find?_cons_of_neg _ (by simp [hpm])] at hih
        exact hih

/-- The non-round-robin branch of `sticky` with a truthy session id: a pure
lookup at `Math.abs(hash) % length`, leaving the state untouched. -/
theorem sticky_spec (devs : Registry) (service key : String) (s : LBState) (hk : key ≠ "") :
    (sticky devs service key s).1 =
      (availableDevelopers devs service s.healthStatus).get?
        ((jsHash key).natAbs % (availableDevelopers devs service s.healthStatus).length)
    ∧ (sticky devs service key s).2 = s := by
  unfold sticky
  by_cases hlen : (availableDevelopers devs service s.healthStatus).length = 0
  · rw [if_pos hlen]
    have hnil := List.length_eq_zero.mp hlen
    constructor
    · rw [hnil]
      rfl
    · rfl
  · rw [if_neg hlen, if_pos hk]
    exact ⟨rfl, rfl⟩

/-
The claim theorems.
-/

/-- C1, counterexample: a single transient-failure report
(`updateStats(dev, false)`, as the interactions handler issues on a proxy
failure) already marks the backend unhealthy — there is no
consecutive-failure counter, so health does not wait for 3 consecutive
transient failures as claimed. -/
theorem c1_counterexample :
    (updateStats "vedant" false initState).healthStatus "vedant" = Health.unhealthy := by
  decide

/-- C1, amended: every failure report — transient or not — marks the
backend unhealthy immediately (both in the serverless `updateStats` and in
the express `onError`), and a single success report marks it healthy; no
counter is involved. -/
theorem c1_health_reporting :
    ∀ (dev : String) (s : LBState), dev ≠ "" →
      (updateStats dev false s).healthStatus dev = Health.unhealthy
      ∧ (updateStats dev true s).healthStatus dev = Health.healthy
      ∧ (onError dev s).healthStatus dev = Health.unhealthy
      ∧ (onProxyRes dev s).healthStatus dev = Health.healthy := by
  intro dev s hdev
  refine ⟨?_, ?_, ?_, ?_⟩ <;> simp [updateStats, onError, onProxyRes, hdev]

/-- C1, witness for the amended theorem at a concrete developer and the
initial state. -/
theorem c1_witness :
    (updateStats "bob" true initState).healthStatus "bob" = Health.healthy :=
  (c1_health_reporting "bob" initState (by decide)).2.1

/-- C2, counterexample: for the inbound body `{"a": 1}` (with a space) the
serverless path forwards `{"a":1}` — the `JSON.stringify` of the parsed
body — which differs from the verbatim inbound bytes. -/
theorem c2_counterexample :
    serverlessForwardedBody "\x7b\"a\": 1\x7d" = some "\x7b\"a\":1\x7d"
    ∧ serverlessForwardedBody "\x7b\"a\": 1\x7d" ≠ some "\x7b\"a\": 1\x7d" := by
  constructor <;> decide

/-- C2, amended: the express proxy path forwards the verbatim raw body
bytes, but the serverless path sends `JSON.stringify` of the parsed body,
which need not equal the inbound bytes. -/
theorem c2_body_forwarding :
    (∀ raw : String, expressForwardedBody raw = raw)
    ∧ (∀ raw : String, serverlessForwardedBody raw = (jsonParse raw).map jsonStringify)
    ∧ (∃ raw : String, serverlessForwardedBody raw ≠ some raw) := by
  refine ⟨?_, fun _ => rfl, ⟨"\x7b\"a\": 1\x7d", by decide⟩⟩
  intro raw
  unfold expressForwardedBody
  split
  · rfl
  · next hlen =>
    cases raw with
    | mk data =>
      have : data = [] := by
        apply List.length_eq_zero.mp
        simpa [String.length] using hlen
      rw [this]

/-- C3: from any state whose eligible set E is non-empty, |E| consecutive
round-robin selections return exactly the rotation of E starting at the
cursor (i.e. they walk E in its iteration order, each member exactly once
when the registry has no duplicate names); in particular with eligible
backends a,b,c and cursor 0, four selections yield a,b,c,a. -/
theorem c3_round_robin_cycle :
    (∀ (devs : Registry) (service : String) (s : LBState),
       (devs.map Prod.fst).Nodup →
       availableDevelopers devs service s.healthStatus ≠ [] →
       (rrSeq devs service (availableDevelopers devs service s.healthStatus).length s).1 =
         ((availableDevelopers devs service s.healthStatus).rotate
            (s.roundRobinIndex %
              (availableDevelopers devs service s.healthStatus).length)).map some
       ∧ ∀ d ∈ availableDevelopers devs service s.healthStatus,
           ((rrSeq devs service
              (availableDevelopers devs service s.healthStatus).length s).1).count (some d)
             = 1)
  ∧ (rrSeq demoDevs "events" 4 initState).1 = [some "a", some "b", some "c", some "a"] := by
  constructor
  · intro devs service s hnd hne
    have hpos : 0 < (availableDevelopers devs service s.healthStatus).length :=
      List.length_pos.mpr hne
    have hmain :
        (rrSeq devs service (availableDevelopers devs service s.healthStatus).length s).1 =
          ((availableDevelopers devs service s.healthStatus).rotate
            (s.roundRobinIndex %
              (availableDevelopers devs service s.healthStatus).length)).map some := by
      rw [rrSeq_get? devs service _ s hne,
        rotate_get?_eq (availableDevelopers devs service s.healthStatus)
          s.roundRobinIndex hpos]
    refine ⟨hmain, ?_⟩
    intro d hd
    rw [hmain]
    have hnodup : (availableDevelopers devs service s.healthStatus).Nodup :=
      hnd.filter _
    rw [count_map_some, count_rotate_eq]
    exact count_eq_one_of_nodup_mem _ hnodup d hd
  · decide

/-- C3, witness: the general part applied to the concrete a,b,c registry
in the initial state. -/
theorem c3_witness :
    ((rrSeq demoDevs "events"
        (availableDevelopers demoDevs "events" initState.healthStatus).length
        initState).1).count (some "b") = 1 :=
  (c3_round_robin_cycle.1 demoDevs "events" initState (by decide) (by decide)).2
    "b" (by decide)

/-- C4, counterexample: the first attempt fails with a transient transport
error (`TimeoutError`) after only 100 ms — far within any time budget —
and a second attempt would succeed, yet `proxyRequest` consumes exactly
one attempt and reports the classified failure: there is no retry. -/
theorem c4_counterexample :
    proxyRequestRun
        [FetchOutcome.failure "TimeoutError" "This operation was aborted",
         FetchOutcome.response 200 Json.null] 100
      = some (Except.error (classifyError "TimeoutError" "This operation was aborted" 100), 1)
    ∧ (1 : Nat) ≠ 2 :=
  ⟨rfl, by decide⟩

/-- C4, amended: the forwarder makes exactly one attempt per forward and
never retries; when that attempt fails it reports the classified failure
immediately. -/
theorem c4_single_attempt :
    ∀ (attempts : List FetchOutcome) (duration : Nat), attempts ≠ [] →
      (proxyRequestRun attempts duration).map Prod.snd = some 1
      ∧ ∀ name msg rest, attempts = FetchOutcome.failure name msg :: rest →
          proxyRequestRun attempts duration =
            some (Except.error (classifyError name msg duration), 1) := by
  intro attempts duration h
  match attempts with
  | [] => exact absurd rfl h
  | FetchOutcome.response st d :: rest =>
    refine ⟨rfl, ?_⟩
    intro name msg rest' heq
    exact absurd heq (by simp)
  | FetchOutcome.failure n m :: rest =>
    refine ⟨rfl, ?_⟩
    intro name msg rest' heq
    obtain ⟨⟨h1, h2⟩, h3⟩ := by simpa using heq
    rw [h1, h2]
    rfl

/-- C4, witness for the amended theorem: a single successful attempt
consumes exactly one outcome. -/
theorem c4_witness :
    (proxyRequestRun [FetchOutcome.response 200 Json.null] 50).map Prod.snd = some 1 :=
  (c4_single_attempt [FetchOutcome.response 200 Json.null] 50 (List.cons_ne_nil _ _)).1

/-- C5, counterexample: a failure that is neither a deadline-exceeded
timeout nor a connection error — e.g. the `SyntaxError` thrown when the
upstream body is not JSON — is mapped to 502, not to 500 as the claim
states. -/
theorem c5_counterexample :
    (classifyError "SyntaxError" "Unexpected token" 42).status = 502
    ∧ (502 : Nat) ≠ 500 :=
  ⟨rfl, by decide⟩

/-- C5, amended: the serverless classifier maps `TimeoutError` to 504 and
every other failure to 502 (504 and 502 are its only outputs), and the
express proxy's `onError` answers 502 for every proxy error; 500 arises
only from the handlers' outer catch-all for internal exceptions. -/
theorem c5_error_mapping :
    (∀ name msg d, (classifyError name msg d).status =
        if name = "TimeoutError" then 504 else 502)
    ∧ (∀ name msg d, (classifyError name msg d).status = 504
        ∨ (classifyError name msg d).status = 502)
    ∧ (∀ code d, (onErrorResponse code d).1 = 502) := by
  refine ⟨fun name msg d => rfl, fun name msg d => ?_, fun code d => rfl⟩
  by_cases h : name = "TimeoutError" <;> simp [classifyError, h]

/-- C6, counterexample: the interactions handler calls
`updateStats(dev, false)` on a failed forward, and `updateStats`
increments the request count unconditionally — so a failed forward raises
the count from 0 to 1, contradicting "incremented exactly when a forward
succeeds". -/
theorem c6_counterexample :
    (updateStats "vedant" false initState).requestCounts "vedant" = 1
    ∧ (1 : Nat) ≠ 0 := by
  constructor <;> decide

/-- C6, amended: request counts are monotonically non-decreasing under
every operation of the engine (selection, outcome reports, reset), and are
never decremented; but in the serverless path `updateStats` increments on
every reported outcome — failure included — while only the express path
increments solely when a response arrives (`onError` leaves counts
unchanged); `resetHealth` does not touch counts. -/
theorem c6_request_count_monotone :
    (∀ (devs : Registry) (op : LBOp) (s : LBState) (d : String),
       s.requestCounts d ≤ (applyOp devs op s).requestCounts d)
    ∧ (∀ (dev : String) (s : LBState),
       (updateStats dev false s).requestCounts dev =
         if dev = "" then s.requestCounts dev else s.requestCounts dev + 1)
    ∧ (∀ (dev : String) (s : LBState) (d : String),
       (onError dev s).requestCounts d = s.requestCounts d)
    ∧ (∀ (s : LBState) (d : String),
       (resetHealth s).requestCounts d = s.requestCounts d) := by
  refine ⟨?_, ?_, ?_, ?_⟩
  · intro devs op s d
    cases op with
    | select strategy service key oracle draw =>
      rw [applyOp, selectDeveloper_counts]
    | stats dev success =>
      show s.requestCounts d ≤ (updateStats dev success s).requestCounts d
      unfold updateStats
      split
      · exact le_refl _
      · dsimp only
        split <;> omega
    | proxyRes dev =>
      show s.requestCounts d ≤ (onProxyRes dev s).requestCounts d
      unfold onProxyRes
      split
      · exact le_refl _
      · dsimp only
        split <;> omega
    | proxyErr dev =>
      show s.requestCounts d ≤ (onError dev s).requestCounts d
      unfold onError
      split <;> exact le_refl _
    | reset => exact le_refl _
  · intro dev s
    unfold updateStats
    split
    · rfl
    · simp
  · intro dev s d
    unfold onError
    split <;> rfl
  · intro s d
    rfl

/-- C7: least-connections returns a member of the eligible set whose
request count is minimal, and the result is the first member of the
eligible set attaining its count (`find?` finds it first) — ties broken by
first occurrence in iteration order; in particular with counts a=5, b=2,
c=2 it returns b. -/
theorem c7_least_connections :
    (∀ (devs : Registry) (service : String) (s : LBState) (d : String) (rest : List String),
       availableDevelopers devs service s.healthStatus = d :: rest →
       ∃ r, (leastConnections devs service s).1 = some r
         ∧ r ∈ d :: rest
         ∧ (∀ e ∈ d :: rest, s.requestCounts r ≤ s.requestCounts e)
         ∧ (d :: rest).find? (fun e => s.requestCounts e == s.requestCounts r) = some r)
  ∧ (leastConnections demoDevs "events" stateC7).1 = some "b" := by
  constructor
  · intro devs service s d rest hav
    refine ⟨lcFold s.requestCounts d rest, ?_, ?_, ?_, ?_⟩
    · simp [leastConnections, hav, lcSelect]
    · exact lcFold_mem s.requestCounts rest d
    · exact fun e he => lcFold_min s.requestCounts rest d e he
    · exact lcFold_first s.requestCounts rest d
  · decide

/-- C7, witness: the general part applied to the a=5, b=2, c=2 state. -/
theorem c7_witness :
    ∃ r, (leastConnections demoDevs "events" stateC7).1 = some r
      ∧ stateC7.requestCounts r ≤ stateC7.requestCounts "a" := by
  obtain ⟨r, h1, _, h3, _⟩ :=
    c7_least_connections.1 demoDevs "events" stateC7 "a" ["b", "c"] (by decide)
  exact ⟨r, h1, h3 "a" (by simp)⟩

/-- C8: with a present (truthy) affinity key, sticky selection is the pure
lookup `E[Math.abs(hash(key)) % |E|]` (the index is a non-negative
integer), it leaves the state untouched, and its result depends only on
the key, the registry and the health map — two calls with the same key
over the same eligible set agree regardless of cursor or counts. -/
theorem c8_sticky :
    (∀ (devs : Registry) (service key : String) (s : LBState), key ≠ "" →
       (sticky devs service key s).1 =
         (availableDevelopers devs service s.healthStatus).get?
           ((jsHash key).natAbs % (availableDevelopers devs service s.healthStatus).length)
       ∧ (sticky devs service key s).2 = s)
  ∧ (∀ (devs : Registry) (service key : String) (s t : LBState), key ≠ "" →
       s.healthStatus = t.healthStatus →
       (sticky devs service key s).1 = (sticky devs service key t).1) := by
  refine ⟨fun devs service key s hk => sticky_spec devs service key s hk, ?_⟩
  intro devs service key s t hk hh
  rw [(sticky_spec devs service key s hk).1, (sticky_spec devs service key t hk).1, hh]

/-- C8, witness: the same key routes identically from two states that
differ in cursor and request counts. -/
theorem c8_witness :
    (sticky demoDevs "events" "U123" stateC7).1 =
      (sticky demoDevs "events" "U123" initState).1 :=
  c8_sticky.2 demoDevs "events" "U123" stateC7 initState (by decide) rfl

/-- C9: with an empty eligible set every strategy's selection returns
`none` and leaves the state untouched (no exception, no division by zero —
the guard precedes the modulo), and the events route answers 503 with no
forward attempted and health and counts unchanged. -/
theorem c9_empty_eligible :
    (∀ (devs : Registry) (strategy service key : String) (oracle : Nat) (draw : Int)
       (s : LBState),
       availableDevelopers devs service s.healthStatus = [] →
       selectDeveloper devs strategy service key oracle draw s = (none, s))
  ∧ (∀ (devs : Registry) (strategy sig fwd : String) (oracle : Nat) (draw : Int)
       (s : LBState),
       availableDevelopers devs "slack_app" s.healthStatus = [] →
       slackEventsRoute devs strategy sig fwd oracle draw s =
         (RouteOutcome.noDevelopers 503 "slack_app", s)) :=
  ⟨fun devs strategy service key oracle draw s h =>
     selectDeveloper_empty devs strategy service key oracle draw s h,
   fun devs strategy sig fwd oracle draw s h =>
     slackEventsRoute_empty devs strategy sig fwd oracle draw s h⟩

/-- C9, witness: the empty registry yields 503 and an unchanged state on
the events route, and `none` from sticky selection. -/
theorem c9_witness :
    slackEventsRoute [] "round_robin" "" "" 0 0 initState =
      (RouteOutcome.noDevelopers 503 "slack_app", initState)
    ∧ selectDeveloper [] "sticky" "slack_app" "U1" 0 0 initState = (none, initState) :=
  ⟨c9_empty_eligible.2 [] "round_robin" "" "" 0 0 initState (by decide),
   c9_empty_eligible.1 [] "sticky" "slack_app" "U1" 0 0 initState (by decide)⟩

/-- C10: for every state of the health tracker — including one where every
backend is marked unhealthy — `GET /health` answers HTTP 200 with
top-level status "healthy"; backend health only appears in the nested
`health_status` field, never in the top-level status. -/
theorem c10_health_endpoint :
    ∀ (devs : Registry) (strategy : String) (s : LBState),
      (healthHandler devs strategy s).1 = 200
      ∧ (healthHandler devs strategy s).2.status = "healthy"
      ∧ (healthHandler devs strategy
          { s with healthStatus := fun _ => Health.unhealthy }).2.status = "healthy" :=
  fun _ _ _ => ⟨rfl, rfl, rfl⟩

end Flush
